import Mathlib

/-!
Verification of the speculative dual-decode ("Either") engine of the
go-play-encoding-json-v2 repository.

The development shallowly embeds the relevant Go code of
src/play/arshaler_either_test.go (the `Either[L, R]` type, its
`MarshalJSONTo`/`UnmarshalJSONFrom` methods, `TeeDecoder`'s background copy
loop, `multiPipeWriter.Write`, and the `teeReader`/`bufReader` stream views)
as executable Lean definitions, and proves or refutes the specified
properties about them.

Modelling conventions:
* JSON token streams are lists of `Token`; a `jsontext.Decoder` is a pair of
  the remaining token list and the current structural depth (`StackDepth`).
* Go errors that matter to control flow are the sentinel values of `PErr`;
  `errors.Is` on sentinels is equality.
* `io.Pipe` is modelled by `PipeW`: `rdCause` is the error recorded by
  `PipeReader.CloseWithError` (it makes subsequent writes fail with that
  error), `wrCause` the error recorded by `PipeWriter.CloseWithError`.
  Go's pipe keeps the first recorded error, later closes do not overwrite.
* Goroutine interleaving is sequentialized: each concurrent decode attempt
  is summarized by its final `Attempt` (value, error, or panic value), and
  consumer pacing is given by a per-token close schedule.
-/

namespace Play

/-! ### JSON tokens and values -/

/-- One lexical token of a serialized JSON tree, as produced by
`jsontext.Decoder.ReadToken`. -/
inductive Token where
  | beginObj
  | endObj
  | beginArr
  | endArr
  | str (s : String)
  | num (n : Int)
  | bool (b : Bool)
  | null
deriving DecidableEq, Repr

/-- Contribution of one token to `jsontext.Decoder.StackDepth`: begin tokens
push a frame, end tokens pop one, scalars leave the depth unchanged. -/
def tokDelta : Token → Int
  | .beginObj => 1
  | .beginArr => 1
  | .endObj => -1
  | .endArr => -1
  | .str _ => 0
  | .num _ => 0
  | .bool _ => 0
  | .null => 0

/-- Total depth change of a token sequence. -/
def deltaL (ts : List Token) : Int :=
  (ts.map tokDelta).sum

/-- State of a `jsontext.Decoder`: the tokens not yet consumed and the
current `StackDepth`. -/
structure Decoder where
  toks : List Token
  depth : Int
deriving DecidableEq, Repr

mutual
/-- A JSON value (the tree a decoder walks). Arrays and objects carry their
children through the companion types so that mutual structural recursion is
available. -/
inductive JsonVal where
  | vstr (s : String)
  | vnum (n : Int)
  | vbool (b : Bool)
  | vnull
  | varr (xs : JsonArr)
  | vobj (fs : JsonObj)

/-- The element list of a JSON array. -/
inductive JsonArr where
  | anil
  | acons (hd : JsonVal) (tl : JsonArr)

/-- The member list of a JSON object. -/
inductive JsonObj where
  | onil
  | ocons (k : String) (hd : JsonVal) (tl : JsonObj)
end

mutual
/-- Token sequence of a JSON value, in source order. -/
def JsonVal.tokens : JsonVal → List Token
  | .vstr s => [.str s]
  | .vnum n => [.num n]
  | .vbool b => [.bool b]
  | .vnull => [.null]
  | .varr xs => .beginArr :: (JsonArr.tokens xs ++ [.endArr])
  | .vobj fs => .beginObj :: (JsonObj.tokens fs ++ [.endObj])

/-- Token sequence of an array body. -/
def JsonArr.tokens : JsonArr → List Token
  | .anil => []
  | .acons v tl => JsonVal.tokens v ++ JsonArr.tokens tl

/-- Token sequence of an object body: each member is its name token followed
by its value's tokens. -/
def JsonObj.tokens : JsonObj → List Token
  | .onil => []
  | .ocons k v tl => .str k :: (JsonVal.tokens v ++ JsonObj.tokens tl)
end

/-- Whether a value is composite (object or array), the case in which
`TeeDecoder` and `Either.UnmarshalJSONFrom` take the streaming path (the Go
switch on `dec.PeekKind()` selecting one of the begin kinds). -/
def JsonVal.IsComposite : JsonVal → Bool
  | .varr _ => true
  | .vobj _ => true
  | _ => false

/-! ### Errors and pipes -/

/-- The sentinel error values relevant to the tee machinery:
`errStopped`, `errFailedEarly`, `io.ErrClosedPipe`, an end-of-input read
error, and a supply of other distinct errors. -/
inductive PErr where
  | stopped
  | failedEarly
  | closedPipe
  | eofErr
  | other (n : Nat)
deriving DecidableEq, Repr

/-- One `io.Pipe`. `rdCause` is the error stored by the reader side's
`CloseWithError` (subsequent `Write` calls fail with it); `wrCause` is the
error stored by the writer side's `CloseWithError` (subsequent `Read` calls
fail with it). -/
structure PipeW where
  rdCause : Option PErr
  wrCause : Option PErr
deriving DecidableEq, Repr

/-- `PipeReader.CloseWithError`: records the cause; the first recorded error
wins (Go's `onceError.Store`). -/
def pipeCloseRd (p : PipeW) (e : PErr) : PipeW :=
  match p.rdCause with
  | some _ => p
  | none => { p with rdCause := some e }

/-- `PipeWriter.CloseWithError`: records the cause; first error wins. -/
def pipeCloseWr (p : PipeW) (e : PErr) : PipeW :=
  match p.wrCause with
  | some _ => p
  | none => { p with wrCause := some e }

/-- `PipeWriter.Write` of `blen` bytes: fails with the reader's close cause
if the reader closed, with `io.ErrClosedPipe` if the writer itself is
closed, and otherwise transfers all `blen` bytes. -/
def pipeWrite (p : PipeW) (blen : Nat) : Nat × Option PErr :=
  match p.rdCause with
  | some e => (0, some e)
  | none =>
    match p.wrCause with
    | some _ => (0, some PErr.closedPipe)
    | none => (blen, none)

/-! ### multiPipeWriter (src/play/arshaler_either_test.go, lines 493-547)

The Go struct holds `maskedErr` and the two pipe-writer references
`wl, wr`, either of which it sets to `nil` once that output has failed.
`MPWState` carries the two pipe states together with the two "reference
still held" flags `hasL`, `hasR`. -/

structure MPWState where
  pl : PipeW
  pr : PipeW
  hasL : Bool
  hasR : Bool
deriving DecidableEq, Repr

/-- The final check of `multiPipeWriter.Write`: if not all bytes were
accepted and no error was produced, report `io.ErrClosedPipe`. -/
def mpwFinal (ts : MPWState) (blen n : Nat) (e : Option PErr) : MPWState × Nat × Option PErr :=
  if blen ≠ n ∧ e = none then (ts, n, some PErr.closedPipe) else (ts, n, e)

/-- Second block of `multiPipeWriter.Write` (the `if w.wr != nil` block):
write to the right pipe if the reference is still held; on failure drop the
reference, and unless the failure is the masked error, close the left pipe
with that failure and return it.  `none` is the Go nil-pointer panic that
occurs when `w.wl` is dereferenced after having been set to nil. -/
def mpwBlock2 (masked : PErr) (ts : MPWState) (blen n : Nat) :
    Option (MPWState × Nat × Option PErr) :=
  if ts.hasR then
    match pipeWrite ts.pr blen with
    | (nr, none) => some (mpwFinal ts blen nr none)
    | (_, some er) =>
      let ts1 : MPWState := { ts with hasR := false }
      if er = masked then some (mpwFinal ts1 blen n none)
      else
        if ts1.hasL then
          some ({ ts1 with pl := pipeCloseWr ts1.pl er, hasL := false }, n, some er)
        else none
  else some (mpwFinal ts blen n none)

/-- `multiPipeWriter.Write` (lines 498-535): write the buffer to the left
pipe, then to the right pipe; a failure equal to `maskedErr` only drops that
side's reference, any other failure closes the opposite pipe with the
failure as cause and returns it.  `none` models the nil-pointer panic of
`w.wr.CloseWithError` / `w.wl.CloseWithError` when the opposite reference
has already been dropped. -/
def multiPipeWriterWrite (masked : PErr) (ts : MPWState) (blen : Nat) :
    Option (MPWState × Nat × Option PErr) :=
  if ts.hasL then
    match pipeWrite ts.pl blen with
    | (nl, none) => mpwBlock2 masked ts blen nl
    | (_, some el) =>
      let ts1 : MPWState := { ts with hasL := false }
      if el = masked then mpwBlock2 masked ts1 blen 0
      else
        if ts1.hasR then
          some ({ ts1 with pr := pipeCloseWr ts1.pr el, hasR := false }, 0, some el)
        else none
  else mpwBlock2 masked ts blen 0

/-! ### The TeeDecoder copy loop (src/play/arshaler_either_test.go, lines 551-602)

For a composite value `TeeDecoder` starts one background task that records
`dec.StackDepth()`, then repeatedly reads one token from the source decoder
and writes it through a `jsontext.Encoder` over the `multiPipeWriter` to
both outputs, until the depth returns to the entry depth; a read or write
error ends the loop immediately.  The encoder is modelled as unbuffered
(each token is one `Write` of length 1).  Consumer pacing is modelled by a
close schedule per output: the consumer decodes at its own pace and may
close its pipe reader (via `Stop`) between any two writes of the copy
task. -/

/-- Close schedule of one consumer: `some (n, c)` means the consumer's pipe
reader is closed with cause `c` from just before the `n`-th token write
onwards (writes counted from 0); `none` means the consumer keeps reading
through the whole value. -/
def schedAt (s : Option (Nat × PErr)) (i : Nat) : Option PErr :=
  match s with
  | none => none
  | some (n, c) => if n ≤ i then some c else none

/-- Interleaving point before a write: apply the close causes the consumers
have recorded by now to the pipe pair (`pipeCloseRd` keeps an earlier
cause). -/
def setCauses (ts : MPWState) (cl cr : Option PErr) : MPWState :=
  { ts with
    pl := match cl with
          | some c => pipeCloseRd ts.pl c
          | none => ts.pl,
    pr := match cr with
          | some c => pipeCloseRd ts.pr c
          | none => ts.pr }

/-- The copy loop (lines 581-597): read one token, write it to both
outputs, stop when the depth returns to `entry`.  The source decoder is
split into its remaining token list (the recursion argument) and its
current depth.  Arguments: the masked error of the `multiPipeWriter`, the
two consumers' close schedules, the recorded entry depth, the source
tokens, the source depth, the pipe pair, the index of the next write, and
the accumulator of forwarded tokens.  The result is the final decoder
state, the final pipe pair, the forwarded tokens, and the error that ended
the loop — `none` exactly when the full value was forwarded; the outer
`none` is the writer's nil-pointer panic case.  An empty source models
`ReadToken` failing (truncated input), which the Go loop returns from
immediately. -/
def teeCopyLoop (masked : PErr) (sl sr : Option (Nat × PErr)) (entry : Int) :
    List Token → Int → MPWState → Nat → List Token →
      Option (Decoder × MPWState × List Token × Option PErr)
  | [], dep, ts, _, acc => some (⟨[], dep⟩, ts, acc, some PErr.eofErr)
  | t :: rest, dep, ts, i, acc =>
    match multiPipeWriterWrite masked (setCauses ts (schedAt sl i) (schedAt sr i)) 1 with
    | none => none
    | some (ts', _, some e) => some (⟨rest, dep + tokDelta t⟩, ts', acc ++ [t], some e)
    | some (ts', _, none) =>
      if dep + tokDelta t = entry then
        some (⟨rest, dep + tokDelta t⟩, ts', acc ++ [t], none)
      else teeCopyLoop masked sl sr entry rest (dep + tokDelta t) ts' (i + 1) (acc ++ [t])

/-- Pipe-pair states from which the left output keeps accepting writes: the
left reference is held and the left pipe has no recorded cause, and the
right pipe — as long as its reference is held — has no writer-side cause
and at most the masked sentinel as reader-side cause. -/
def LGood (masked : PErr) (ts : MPWState) : Prop :=
  ts.hasL = true ∧ ts.pl.rdCause = none ∧ ts.pl.wrCause = none ∧
    (ts.hasR = true → ts.pr.wrCause = none ∧
      (ts.pr.rdCause = none ∨ ts.pr.rdCause = some masked))

/-- Mirror image of `LGood`: the right output keeps accepting writes. -/
def RGood (masked : PErr) (ts : MPWState) : Prop :=
  ts.hasR = true ∧ ts.pr.rdCause = none ∧ ts.pr.wrCause = none ∧
    (ts.hasL = true → ts.pl.wrCause = none ∧
      (ts.pl.rdCause = none ∨ ts.pl.rdCause = some masked))

/-- The consumer never closes its pipe during the value: it reads the
stream to the end (a successful decode, or a failing one that keeps
draining). -/
def KeepsOpen (s : Option (Nat × PErr)) : Prop :=
  ∀ i, schedAt s i = none

/-- Whenever this consumer closes its pipe, the recorded cause is the
masked sentinel (`Stop(false)` after its decode failed). -/
def MaskedOnly (masked : PErr) (s : Option (Nat × PErr)) : Prop :=
  ∀ i c, schedAt s i = some c → c = masked

/-- At least one consumer drains its stream through the whole value while
the other only ever closes with the masked sentinel, and the pipe pair is
in the matching good state. -/
def GoodCfg (masked : PErr) (sl sr : Option (Nat × PErr)) (ts : MPWState) : Prop :=
  (KeepsOpen sl ∧ MaskedOnly masked sr ∧ LGood masked ts) ∨
    (KeepsOpen sr ∧ MaskedOnly masked sl ∧ RGood masked ts)

/-! ### The Either type (src/play/arshaler_either_test.go, lines 323-386)

Go zero values have no Lean counterpart, so every definition that relies on
a zero value of `L` or `R` receives it explicitly (`zL`, `zR`). -/

/-- The Go struct `Either[L, R]`; the comment in the source notes that the
zero value is a zero Left. -/
structure Either (L R : Type) where
  isRight : Bool
  l : L
  r : R
deriving DecidableEq, Repr

/-- Constructor `Left[L, R](l)`: the `r` field is left at its zero value
`zR`. -/
def Left {L R : Type} (l : L) (zR : R) : Either L R :=
  { isRight := false, l := l, r := zR }

/-- Constructor `Right[L, R](r)`: the `l` field is left at its zero value
`zL`. -/
def Right {L R : Type} (r : R) (zL : L) : Either L R :=
  { isRight := true, l := zL, r := r }

/-- Method `IsLeft`. -/
def Either.IsLeft {L R : Type} (e : Either L R) : Bool :=
  !e.isRight

/-- Method `IsRight`. -/
def Either.IsRight {L R : Type} (e : Either L R) : Bool :=
  e.isRight

/-- Method `Left`. -/
def Either.Left {L R : Type} (e : Either L R) : L :=
  e.l

/-- Method `Right`. -/
def Either.Right {L R : Type} (e : Either L R) : R :=
  e.r

/-- The Go zero value of `Either[L, R]`: every field at its own zero value
(`false`, `zL`, `zR`). -/
def zeroEither {L R : Type} (zL : L) (zR : R) : Either L R :=
  { isRight := false, l := zL, r := zR }

/-- `MarshalJSONTo` (lines 381-386): delegate to the marshaler of the held
side, with `mL`/`mR` abstracting `json.MarshalEncode` at the two component
types and `B` the encoded output. -/
def marshalJSONTo {L R B : Type} (mL : L → B) (mR : R → B) (e : Either L R) : B :=
  if e.IsLeft then mL e.Left else mR e.Right

/-! ### Combined error (the eitherErr closure, lines 605-607) -/

/-- The error built by `fmt.Errorf("... l = (%w), r = (%w)", errL, errR)`:
both underlying errors are wrapped, left first. -/
structure EitherUnmarshalErr (E : Type) where
  errL : E
  errR : E
deriving DecidableEq, Repr

/-- The eitherErr closure. -/
def eitherErr {E : Type} (errL errR : E) : EitherUnmarshalErr E :=
  { errL := errL, errR := errR }

/-- `errors.Unwrap` surface of the combined error: `fmt.Errorf` with two
`%w` verbs wraps both operands, in order of appearance. -/
def EitherUnmarshalErr.unwrap {E : Type} (c : EitherUnmarshalErr E) : List E :=
  [c.errL, c.errR]

/-! ### The scalar path of Either.UnmarshalJSONFrom (lines 609-633)

`dec.ReadValue()` has returned the raw bytes of one scalar value `v`; the
method then tries `json.Unmarshal` into a fresh `L`, and only if that fails
into a fresh `R`.  `dL`/`dR` abstract `json.Unmarshal` at the two types.
The returned pair is the receiver value after the call and the combined
error (`none` on success); on a combined failure no field of the receiver
has been assigned. -/
def unmarshalEitherScalar {L R E : Type} (zL : L) (zR : R)
    (dL : JsonVal → Except E L) (dR : JsonVal → Except E R)
    (e : Either L R) (v : JsonVal) : Either L R × Option (EitherUnmarshalErr E) :=
  match dL v with
  | .ok l => ({ isRight := false, l := l, r := zR }, none)
  | .error errL =>
    match dR v with
    | .ok r => ({ isRight := true, l := zL, r := r }, none)
    | .error errR => (e, some (eitherErr errL errR))

/-! ### The composite path of Either.UnmarshalJSONFrom (lines 634-696) -/

/-- Outcome of one decode attempt: a value, an ordinary error, or a panic
that was raised while decoding. -/
inductive Attempt (E A P : Type) where
  | ok (a : A)
  | fail (e : E)
  | crash (p : P)
deriving DecidableEq, Repr

/-- What the composite path of `UnmarshalJSONFrom` does after joining: the
method returns normally, returns the combined error, or re-raises a panic
value. -/
inductive UnmarshalOutcome (E P : Type) where
  | ok
  | err (er : EitherUnmarshalErr E)
  | panicked (p : P)
deriving DecidableEq, Repr

/-- Result of the composite path: the receiver value after the call, the
final content of the write-once panic cell (`panicVal` guarded by
`storeOnce`), and the outcome delivered to the caller. -/
structure CompositeResult (L R E P : Type) where
  dest : Either L R
  cell : Option P
  outcome : UnmarshalOutcome E P
deriving DecidableEq, Repr

/-- `storeOnce.Do`: a later store into an already-written cell has no
effect. -/
def storeFirst {P : Type} (cell : Option P) (p : P) : Option P :=
  match cell with
  | some q => some q
  | none => some p

/-- The composite branch of `Either.UnmarshalJSONFrom` (lines 650-696),
sequentialized.  The R-side decode runs in a goroutine whose deferred
recover stores a panic value into the write-once cell; the L-side decode
runs inline with no recover, so an L-side panic propagates to the caller
during unwinding (the deferred `wg.Wait` and stream cleanup still run
first) and the `panicVal` re-raise after `wg.Wait()` is never reached.
When no side panicked the reduction checks `errL` first, then `errR`, and
on a double failure returns `eitherErr errL errR` leaving the receiver
untouched. -/
def resolveEitherComposite {L R E P : Type} (zL : L) (zR : R) (e : Either L R)
    (attL : Attempt E L P) (attR : Attempt E R P) : CompositeResult L R E P :=
  let cell : Option P :=
    match attR with
    | .crash p => storeFirst none p
    | _ => none
  match attL with
  | .crash pL => { dest := e, cell := cell, outcome := .panicked pL }
  | .ok l =>
    match cell with
    | some p => { dest := e, cell := cell, outcome := .panicked p }
    | none => { dest := { isRight := false, l := l, r := zR }, cell := none, outcome := .ok }
  | .fail errL =>
    match cell with
    | some p => { dest := e, cell := cell, outcome := .panicked p }
    | none =>
      match attR with
      | .ok r => { dest := { isRight := true, l := zL, r := r }, cell := none, outcome := .ok }
      | .fail errR => { dest := e, cell := none, outcome := .err (eitherErr errL errR) }
      | .crash p => { dest := e, cell := cell, outcome := .panicked p }

/-! ### Stream views (teeReader lines 433-491, bufReader lines 393-420) -/

/-- State of a `teeReader` view: the `closed` flag and its `io.PipeReader`. -/
structure teeReader where
  closed : Bool
  pipe : PipeW
deriving DecidableEq, Repr

/-- `teeReader.Stop` (lines 477-491): a second call returns immediately;
the first call marks the view closed and closes the pipe reader with
`errStopped` on a successful stop, `errFailedEarly` otherwise. -/
def teeReader.Stop (r : teeReader) (successful : Bool) : teeReader :=
  if r.closed then r
  else
    { closed := true,
      pipe := pipeCloseRd r.pipe (if successful then PErr.stopped else PErr.failedEarly) }

/-- `teeReader.Close` (lines 457-475): a second call returns immediately;
the first call marks the view closed and closes the pipe reader
(`PipeReader.Close` records `io.ErrClosedPipe`). -/
def teeReader.Close (r : teeReader) : teeReader :=
  if r.closed then r
  else { closed := true, pipe := pipeCloseRd r.pipe PErr.closedPipe }

/-- State of a `bufReader` view over an in-memory scalar copy. -/
structure bufReader where
  closed : Bool
deriving DecidableEq, Repr

/-- `bufReader.Stop` (lines 416-420): unconditionally set the closed flag. -/
def bufReader.Stop (r : bufReader) (successful : Bool) : bufReader :=
  { closed := true }

/-- `bufReader.Close` (lines 409-414): set the closed flag. -/
def bufReader.Close (r : bufReader) : bufReader :=
  { closed := true }

/-! ## Claims -/

/-- Claim C1, counterexample: in the composite path the R-side decode is
always attempted, not only after L has failed.  With the L-side decode
succeeding (value 5), the overall result still depends on the R-side
attempt: an R-side panic (the "right panics" test) surfaces as a panic
instead of Left, so decoding as L succeeding does not make the result Left
and R was attempted before L's outcome was known. -/
theorem leftBias_cex :
    resolveEitherComposite (0 : Nat) (0 : Nat) (zeroEither 0 0)
        (Attempt.ok 5 : Attempt Nat Nat Nat) (Attempt.crash 7) =
      { dest := zeroEither 0 0, cell := some 7, outcome := UnmarshalOutcome.panicked 7 } ∧
    resolveEitherComposite (0 : Nat) (0 : Nat) (zeroEither 0 0)
        (Attempt.ok 5 : Attempt Nat Nat Nat) (Attempt.fail 9) =
      { dest := { isRight := false, l := 5, r := 0 }, cell := none,
        outcome := UnmarshalOutcome.ok } ∧
    (UnmarshalOutcome.panicked 7 : UnmarshalOutcome Nat Nat) ≠ UnmarshalOutcome.ok :=
  ⟨rfl, rfl, by decide⟩

/-- Claim C1, amended: on the scalar path R is attempted only after L has
failed and an L success yields Left for every R decoder; on the composite
path both sides are always attempted concurrently, and the reduction is
L-biased: if the L attempt succeeded and the R attempt did not crash, the
result is Left holding the L value with R at its zero value, regardless of
the R attempt's own outcome. -/
theorem leftBias_amended {L R E P : Type} (zL : L) (zR : R)
    (dL : JsonVal → Except E L) (dR : JsonVal → Except E R)
    (e : Either L R) (v : JsonVal) (l : L) (attR : Attempt E R P) :
    (dL v = Except.ok l →
      unmarshalEitherScalar zL zR dL dR e v = ({ isRight := false, l := l, r := zR }, none)) ∧
    ((∀ p, attR ≠ Attempt.crash p) →
      resolveEitherComposite zL zR e (Attempt.ok l) attR =
        { dest := { isRight := false, l := l, r := zR }, cell := none,
          outcome := UnmarshalOutcome.ok }) := by
  constructor
  · intro h
    simp [unmarshalEitherScalar, h]
  · intro h
    cases attR with
    | ok r => rfl
    | fail er => rfl
    | crash p => exact absurd rfl (h p)

/-- Claim C1, witness for the amended theorem at concrete inputs. -/
theorem leftBias_witness :
    unmarshalEitherScalar (0 : Nat) (0 : Nat) (fun _ => Except.ok 5)
        (fun _ => (Except.error 3 : Except Nat Nat)) (zeroEither 0 0) JsonVal.vnull =
      ({ isRight := false, l := 5, r := 0 }, none) ∧
    resolveEitherComposite (0 : Nat) (0 : Nat) (zeroEither 0 0)
        (Attempt.ok 5 : Attempt Nat Nat Nat) (Attempt.fail 9) =
      { dest := { isRight := false, l := 5, r := 0 }, cell := none,
        outcome := UnmarshalOutcome.ok } := by
  constructor
  · exact (leftBias_amended 0 0 (fun _ => Except.ok 5) (fun _ => (Except.error 3 : Except Nat Nat))
      (zeroEither 0 0) JsonVal.vnull 5 (Attempt.fail 9 : Attempt Nat Nat Nat)).1 rfl
  · exact (leftBias_amended 0 0 (fun _ => Except.ok 5) (fun _ => (Except.error 3 : Except Nat Nat))
      (zeroEither 0 0) JsonVal.vnull 5 (Attempt.fail 9 : Attempt Nat Nat Nat)).2
      (fun p h => nomatch h)

/-- Claim C3: whenever the resolver succeeds, the resulting Either holds
exactly one candidate, with the other component at its zero value,
discriminated by the isRight tag — on both the scalar and the composite
path. -/
theorem exactlyOneCandidate {L R E P : Type} (zL : L) (zR : R)
    (dL : JsonVal → Except E L) (dR : JsonVal → Except E R)
    (e : Either L R) (v : JsonVal) (attL : Attempt E L P) (attR : Attempt E R P) :
    ((unmarshalEitherScalar zL zR dL dR e v).2 = none →
      ((unmarshalEitherScalar zL zR dL dR e v).1.isRight = false ∧
        (unmarshalEitherScalar zL zR dL dR e v).1.r = zR) ∨
      ((unmarshalEitherScalar zL zR dL dR e v).1.isRight = true ∧
        (unmarshalEitherScalar zL zR dL dR e v).1.l = zL)) ∧
    ((resolveEitherComposite zL zR e attL attR).outcome = UnmarshalOutcome.ok →
      ((resolveEitherComposite zL zR e attL attR).dest.isRight = false ∧
        (resolveEitherComposite zL zR e attL attR).dest.r = zR) ∨
      ((resolveEitherComposite zL zR e attL attR).dest.isRight = true ∧
        (resolveEitherComposite zL zR e attL attR).dest.l = zL)) := by
  constructor
  · intro h
    rcases hL : dL v with errL | l
    · rcases hR : dR v with errR | rr
      · simp [unmarshalEitherScalar, hL, hR] at h
      · right
        simp [unmarshalEitherScalar, hL, hR]
    · left
      simp [unmarshalEitherScalar, hL]
  · intro h
    cases attL <;> cases attR <;> simp_all [resolveEitherComposite, storeFirst]

/-- Claim C3, witness: the theorem applied where L fails and R succeeds
(scalar path) and where the attempts fail/succeed (composite path). -/
theorem exactlyOneCandidate_witness :
    (((unmarshalEitherScalar (0 : Nat) (0 : Nat) (fun _ => (Except.error 3 : Except Nat Nat))
        (fun _ => Except.ok 8) (zeroEither 0 0) JsonVal.vnull).1.isRight = false ∧
      (unmarshalEitherScalar (0 : Nat) (0 : Nat) (fun _ => (Except.error 3 : Except Nat Nat))
        (fun _ => Except.ok 8) (zeroEither 0 0) JsonVal.vnull).1.r = 0) ∨
     ((unmarshalEitherScalar (0 : Nat) (0 : Nat) (fun _ => (Except.error 3 : Except Nat Nat))
        (fun _ => Except.ok 8) (zeroEither 0 0) JsonVal.vnull).1.isRight = true ∧
      (unmarshalEitherScalar (0 : Nat) (0 : Nat) (fun _ => (Except.error 3 : Except Nat Nat))
        (fun _ => Except.ok 8) (zeroEither 0 0) JsonVal.vnull).1.l = 0)) ∧
    (((resolveEitherComposite (0 : Nat) (0 : Nat) (zeroEither 0 0)
        (Attempt.fail 3 : Attempt Nat Nat Nat) (Attempt.ok 8)).dest.isRight = false ∧
      (resolveEitherComposite (0 : Nat) (0 : Nat) (zeroEither 0 0)
        (Attempt.fail 3 : Attempt Nat Nat Nat) (Attempt.ok 8)).dest.r = 0) ∨
     ((resolveEitherComposite (0 : Nat) (0 : Nat) (zeroEither 0 0)
        (Attempt.fail 3 : Attempt Nat Nat Nat) (Attempt.ok 8)).dest.isRight = true ∧
      (resolveEitherComposite (0 : Nat) (0 : Nat) (zeroEither 0 0)
        (Attempt.fail 3 : Attempt Nat Nat Nat) (Attempt.ok 8)).dest.l = 0)) := by
  constructor
  · exact (exactlyOneCandidate 0 0 (fun _ => (Except.error 3 : Except Nat Nat))
      (fun _ => Except.ok 8) (zeroEither 0 0) JsonVal.vnull
      (Attempt.fail 3 : Attempt Nat Nat Nat) (Attempt.ok 8)).1 rfl
  · exact (exactlyOneCandidate 0 0 (fun _ => (Except.error 3 : Except Nat Nat))
      (fun _ => Except.ok 8) (zeroEither 0 0) JsonVal.vnull
      (Attempt.fail 3 : Attempt Nat Nat Nat) (Attempt.ok 8)).2 rfl

/-- Claim C4: when both candidate decodes fail, the caller-visible
destination Either is returned unchanged — no field was assigned, on either
path, even though the attempts decoded into scratch locals. -/
theorem noPartialMutation {L R E P : Type} (zL : L) (zR : R)
    (dL : JsonVal → Except E L) (dR : JsonVal → Except E R)
    (e : Either L R) (v : JsonVal) (e1 e2 f1 f2 : E) :
    (dL v = Except.error e1 → dR v = Except.error e2 →
      unmarshalEitherScalar zL zR dL dR e v = (e, some (eitherErr e1 e2))) ∧
    resolveEitherComposite zL zR e (Attempt.fail f1 : Attempt E L P) (Attempt.fail f2) =
      { dest := e, cell := none, outcome := UnmarshalOutcome.err (eitherErr f1 f2) } := by
  refine ⟨?_, rfl⟩
  intro h1 h2
  simp [unmarshalEitherScalar, h1, h2]

/-- Claim C4, witness: a non-zero destination value survives a double
failure untouched. -/
theorem noPartialMutation_witness :
    unmarshalEitherScalar (0 : Nat) (0 : Nat) (fun _ => (Except.error 3 : Except Nat Nat))
        (fun _ => (Except.error 4 : Except Nat Nat)) ⟨true, 7, 8⟩ JsonVal.vnull =
      (⟨true, 7, 8⟩, some (eitherErr 3 4)) :=
  (@noPartialMutation Nat Nat Nat Nat 0 0 (fun _ => Except.error 3) (fun _ => Except.error 4)
    ⟨true, 7, 8⟩ JsonVal.vnull 3 4 3 4).1 rfl rfl

/-- Claim C5, counterexample: when both sides crash, the captured value in
the write-once cell is the R-side's (the only side decoded under a
recover), but the panic re-raised to the caller is the L-side's, raised
during unwinding of the inline decode; the retained value 2 is discarded,
never re-raised, refuting that the captured crash value is re-raised to the
caller. -/
theorem crashPropagation_cex :
    resolveEitherComposite (0 : Nat) (0 : Nat) (zeroEither 0 0)
        (Attempt.crash 1 : Attempt Nat Nat Nat) (Attempt.crash 2) =
      { dest := zeroEither 0 0, cell := some 2, outcome := UnmarshalOutcome.panicked 1 } ∧
    (UnmarshalOutcome.panicked 1 : UnmarshalOutcome Nat Nat) ≠ UnmarshalOutcome.panicked 2 :=
  ⟨rfl, by decide⟩

/-- Claim C5, amended: the panic cell is write-once (a later store never
replaces the first), an R-side crash alone is re-raised exactly once after
the joins, an L-side crash propagates to the caller itself (taking
precedence over the captured R-side value when both crash), and in every
crash case the outcome is never an ordinary decode failure. -/
theorem crashPropagation_amended {L R E P : Type} (zL : L) (zR : R) (e : Either L R)
    (attL : Attempt E L P) (attR : Attempt E R P) (pL pR : P) (ps : List P) :
    (List.foldl storeFirst (some pL) ps = some pL) ∧
    (attL = Attempt.crash pL →
      (resolveEitherComposite zL zR e attL attR).outcome = UnmarshalOutcome.panicked pL ∧
      (resolveEitherComposite zL zR e attL attR).dest = e) ∧
    ((∀ q, attL ≠ Attempt.crash q) → attR = Attempt.crash pR →
      resolveEitherComposite zL zR e attL attR =
        { dest := e, cell := some pR, outcome := UnmarshalOutcome.panicked pR }) ∧
    ((attL = Attempt.crash pL ∨ attR = Attempt.crash pR) →
      ∀ er, (resolveEitherComposite zL zR e attL attR).outcome ≠ UnmarshalOutcome.err er) := by
  refine ⟨?_, ?_, ?_, ?_⟩
  · induction ps with
    | nil => rfl
    | cons q qs ih => simpa [storeFirst] using ih
  · intro h
    subst h
    cases attR <;> simp [resolveEitherComposite, storeFirst]
  · intro hq h
    subst h
    cases attL with
    | ok l => rfl
    | fail er => rfl
    | crash q => exact absurd rfl (hq q)
  · intro h er
    rcases h with h | h
    · subst h
      cases attR <;> simp [resolveEitherComposite, storeFirst]
    · subst h
      cases attL <;> simp [resolveEitherComposite, storeFirst]

/-- Claim C5, witness for the amended theorem: a single R-side crash is
captured and re-raised; a single L-side crash propagates. -/
theorem crashPropagation_witness :
    (resolveEitherComposite (0 : Nat) (0 : Nat) (zeroEither 0 0)
        (Attempt.crash 1 : Attempt Nat Nat Nat) (Attempt.fail 9)).outcome =
      UnmarshalOutcome.panicked 1 ∧
    resolveEitherComposite (0 : Nat) (0 : Nat) (zeroEither 0 0)
        (Attempt.fail 4 : Attempt Nat Nat Nat) (Attempt.crash 5) =
      { dest := zeroEither 0 0, cell := some 5, outcome := UnmarshalOutcome.panicked 5 } := by
  constructor
  · exact ((crashPropagation_amended 0 0 (zeroEither 0 0)
      (Attempt.crash 1 : Attempt Nat Nat Nat) (Attempt.fail 9) 1 5 []).2.1 rfl).1
  · exact (crashPropagation_amended 0 0 (zeroEither 0 0)
      (Attempt.fail 4 : Attempt Nat Nat Nat) (Attempt.crash 5) 1 5 []).2.2.1
      (fun q h => nomatch h) rfl

/-- Claim C6, counterexample: the left output's consumer has stopped
successfully (its pipe reader closed with errStopped), the right output is
still accepting writes (no close cause recorded), yet Write aborts with
errStopped and closes the right stream with that cause — forwarding to the
other, still-accepting output is not continued, refuting the claim for a
consumer that stopped successfully. -/
theorem writeFanout_cex :
    multiPipeWriterWrite PErr.failedEarly
        ⟨⟨some PErr.stopped, none⟩, ⟨none, none⟩, true, true⟩ 1 =
      some (⟨⟨some PErr.stopped, none⟩, ⟨none, some PErr.stopped⟩, false, false⟩, 0,
        some PErr.stopped) ∧
    (⟨none, none⟩ : PipeW).rdCause = none ∧ PErr.stopped ≠ PErr.failedEarly :=
  ⟨rfl, rfl, by decide⟩

/-- Claim C6, amended: only a write failure carrying the masked
early-failure sentinel is tolerated — forwarding then continues to the
other output (both orientations); when both outputs have failed with the
masked sentinel, Write reports io.ErrClosedPipe; a write failure with any
other cause ends the Write immediately, closing the other stream with that
failure as cause, in both orientations — a non-masked failure on the left
output closes the right pipe and reports 0 bytes, a non-masked failure on
the right output closes the left pipe and still reports the full byte
count accepted by the left write. -/
theorem writeFanout_amended (masked c : PErr) (blen : Nat) :
    (multiPipeWriterWrite masked ⟨⟨some masked, none⟩, ⟨none, none⟩, true, true⟩ blen =
      some (⟨⟨some masked, none⟩, ⟨none, none⟩, false, true⟩, blen, none)) ∧
    (multiPipeWriterWrite masked ⟨⟨none, none⟩, ⟨some masked, none⟩, true, true⟩ blen =
      some (⟨⟨none, none⟩, ⟨some masked, none⟩, true, false⟩, blen, none)) ∧
    (0 < blen →
      multiPipeWriterWrite masked ⟨⟨some masked, none⟩, ⟨some masked, none⟩, true, true⟩ blen =
        some (⟨⟨some masked, none⟩, ⟨some masked, none⟩, false, false⟩, 0,
          some PErr.closedPipe)) ∧
    (c ≠ masked →
      multiPipeWriterWrite masked ⟨⟨some c, none⟩, ⟨none, none⟩, true, true⟩ blen =
        some (⟨⟨some c, none⟩, ⟨none, some c⟩, false, false⟩, 0, some c)) ∧
    (c ≠ masked →
      multiPipeWriterWrite masked ⟨⟨none, none⟩, ⟨some c, none⟩, true, true⟩ blen =
        some (⟨⟨none, some c⟩, ⟨some c, none⟩, false, false⟩, blen, some c)) := by
  refine ⟨?_, ?_, ?_, ?_, ?_⟩
  · simp [multiPipeWriterWrite, mpwBlock2, mpwFinal, pipeWrite]
  · simp [multiPipeWriterWrite, mpwBlock2, mpwFinal, pipeWrite]
  · intro h
    simp [multiPipeWriterWrite, mpwBlock2, mpwFinal, pipeWrite, h.ne']
  · intro h
    simp [multiPipeWriterWrite, mpwBlock2, mpwFinal, pipeWrite, pipeCloseWr, h]
  · intro h
    simp [multiPipeWriterWrite, mpwBlock2, mpwFinal, pipeWrite, pipeCloseWr, h]

/-- Claim C6, witness for the amended theorem, exercising every
hypothesis: the both-masked case, the masked-tolerance case, and the
non-masked abort on each of the two outputs. -/
theorem writeFanout_witness :
    (0 < 1 ∧ multiPipeWriterWrite PErr.failedEarly
        ⟨⟨some PErr.failedEarly, none⟩, ⟨some PErr.failedEarly, none⟩, true, true⟩ 1 =
      some (⟨⟨some PErr.failedEarly, none⟩, ⟨some PErr.failedEarly, none⟩, false, false⟩, 0,
        some PErr.closedPipe)) ∧
    (multiPipeWriterWrite PErr.failedEarly
        ⟨⟨some PErr.failedEarly, none⟩, ⟨none, none⟩, true, true⟩ 1 =
      some (⟨⟨some PErr.failedEarly, none⟩, ⟨none, none⟩, false, true⟩, 1, none)) ∧
    (PErr.stopped ≠ PErr.failedEarly ∧
      multiPipeWriterWrite PErr.failedEarly
          ⟨⟨some PErr.stopped, none⟩, ⟨none, none⟩, true, true⟩ 1 =
        some (⟨⟨some PErr.stopped, none⟩, ⟨none, some PErr.stopped⟩, false, false⟩, 0,
          some PErr.stopped)) ∧
    (PErr.stopped ≠ PErr.failedEarly ∧
      multiPipeWriterWrite PErr.failedEarly
          ⟨⟨none, none⟩, ⟨some PErr.stopped, none⟩, true, true⟩ 1 =
        some (⟨⟨none, some PErr.stopped⟩, ⟨some PErr.stopped, none⟩, false, false⟩, 1,
          some PErr.stopped)) :=
  ⟨⟨by decide, (writeFanout_amended PErr.failedEarly PErr.stopped 1).2.2.1 (by decide)⟩,
    (writeFanout_amended PErr.failedEarly PErr.stopped 1).1,
    ⟨by decide, (writeFanout_amended PErr.failedEarly PErr.stopped 1).2.2.2.1 (by decide)⟩,
    ⟨by decide, (writeFanout_amended PErr.failedEarly PErr.stopped 1).2.2.2.2 (by decide)⟩⟩

/-- Claim C7: on a double failure both paths return the combined error
built by eitherErr, which embeds both underlying errors distinguishably and
in order — the L-side error first, the R-side error second — each
recoverable from the wrapper. -/
theorem combinedErrorBoth {L R E P : Type} (zL : L) (zR : R)
    (dL : JsonVal → Except E L) (dR : JsonVal → Except E R)
    (e : Either L R) (v : JsonVal) (e1 e2 : E) :
    (dL v = Except.error e1 → dR v = Except.error e2 →
      (unmarshalEitherScalar zL zR dL dR e v).2 = some (eitherErr e1 e2)) ∧
    (resolveEitherComposite zL zR e (Attempt.fail e1 : Attempt E L P)
      (Attempt.fail e2)).outcome = UnmarshalOutcome.err (eitherErr e1 e2) ∧
    (eitherErr e1 e2).unwrap = [e1, e2] ∧
    (eitherErr e1 e2).errL = e1 ∧ (eitherErr e1 e2).errR = e2 := by
  refine ⟨?_, rfl, rfl, rfl, rfl⟩
  intro h1 h2
  simp [unmarshalEitherScalar, h1, h2]

/-- Claim C7, witness. -/
theorem combinedErrorBoth_witness :
    (unmarshalEitherScalar (0 : Nat) (0 : Nat) (fun _ => (Except.error 3 : Except Nat Nat))
        (fun _ => (Except.error 4 : Except Nat Nat)) (zeroEither 0 0) JsonVal.vnull).2 =
      some (eitherErr 3 4) :=
  (@combinedErrorBoth Nat Nat Nat Nat 0 0 (fun _ => Except.error 3) (fun _ => Except.error 4)
    (zeroEither 0 0) JsonVal.vnull 3 4).1 rfl rfl

/-- Claim C8: Stop is idempotent on both stream views — a second Stop after
any prior Stop or Close leaves the view's state (closed flag and recorded
pipe closing cause) exactly as it was, with no further effect towards the
duplicator. -/
theorem stopIdempotent (r : teeReader) (s : bufReader) (b b' : Bool) :
    teeReader.Stop (teeReader.Stop r b) b' = teeReader.Stop r b ∧
    teeReader.Stop (teeReader.Close r) b' = teeReader.Close r ∧
    bufReader.Stop (bufReader.Stop s b) b' = bufReader.Stop s b ∧
    bufReader.Stop (bufReader.Close s) b' = bufReader.Close s := by
  refine ⟨?_, ?_, rfl, rfl⟩
  · by_cases h : r.closed <;> simp [teeReader.Stop, h]
  · by_cases h : r.closed <;> simp [teeReader.Stop, teeReader.Close, h]

/-- Claim C9: marshaling is transparent — marshaling a Left produces
exactly what marshaling the L value alone produces, and likewise for Right;
no wrapper, tag, or discriminant is added around the component's output. -/
theorem marshalTransparent {L R B : Type} (mL : L → B) (mR : R → B)
    (l : L) (r : R) (zL : L) (zR : R) :
    marshalJSONTo mL mR (Left l zR) = mL l ∧ marshalJSONTo mL mR (Right r zL) = mR r := by
  constructor
  · rfl
  · rfl

/-- Claim C10: the zero value of Either[L, R] is a valid Left at L's zero
value — IsLeft is true, IsRight is false, Left() returns L's zero value,
and the zero value coincides with the explicitly constructed
Left(zero of L). -/
theorem zeroIsLeft {L R : Type} (zL : L) (zR : R) :
    (zeroEither zL zR).IsLeft = true ∧ (zeroEither zL zR).IsRight = false ∧
      (zeroEither zL zR).Left = zL ∧ zeroEither zL zR = Left zL zR :=
  ⟨rfl, rfl, rfl, rfl⟩

/-! ## Token-stream lemmas for the copy loop -/

theorem deltaL_nil : deltaL [] = 0 := rfl

theorem deltaL_cons (t : Token) (ts : List Token) :
    deltaL (t :: ts) = tokDelta t + deltaL ts := by
  simp [deltaL]

theorem deltaL_append (a b : List Token) : deltaL (a ++ b) = deltaL a + deltaL b := by
  simp [deltaL]

mutual
/-- A full value's token sequence is depth-balanced. -/
theorem deltaL_tokensV : ∀ v : JsonVal, deltaL (JsonVal.tokens v) = 0
  | .vstr s => rfl
  | .vnum n => rfl
  | .vbool b => rfl
  | .vnull => rfl
  | .varr xs => by
    rw [JsonVal.tokens, deltaL_cons, deltaL_append, deltaL_tokensA xs]
    simp [deltaL, tokDelta]
  | .vobj fs => by
    rw [JsonVal.tokens, deltaL_cons, deltaL_append, deltaL_tokensO fs]
    simp [deltaL, tokDelta]

/-- An array body's token sequence is depth-balanced. -/
theorem deltaL_tokensA : ∀ xs : JsonArr, deltaL (JsonArr.tokens xs) = 0
  | .anil => rfl
  | .acons v tl => by
    rw [JsonArr.tokens, deltaL_append, deltaL_tokensV v, deltaL_tokensA tl]
    simp

/-- An object body's token sequence is depth-balanced. -/
theorem deltaL_tokensO : ∀ fs : JsonObj, deltaL (JsonObj.tokens fs) = 0
  | .onil => rfl
  | .ocons k v tl => by
    rw [JsonObj.tokens, deltaL_cons, deltaL_append, deltaL_tokensV v, deltaL_tokensO tl]
    simp [tokDelta]
end

theorem singleton_split {α : Type} {x : α} {p q : List α} (h : [x] = p ++ q) :
    (p = [] ∧ q = [x]) ∨ (p = [x] ∧ q = []) := by
  cases p with
  | nil => exact Or.inl ⟨rfl, h.symm⟩
  | cons a p' =>
    rw [List.cons_append] at h
    obtain ⟨h1, h2⟩ := List.cons.inj h
    obtain ⟨h3, h4⟩ := List.append_eq_nil.mp h2.symm
    subst h1
    subst h3
    subst h4
    exact Or.inr ⟨rfl, rfl⟩

mutual
/-- Every prefix of a value's token sequence has nonnegative depth
change. -/
theorem prefV : ∀ (v : JsonVal) (p q : List Token), JsonVal.tokens v = p ++ q → 0 ≤ deltaL p
  | .vstr s, p, q, h => by
    rcases singleton_split h with ⟨h1, -⟩ | ⟨h1, -⟩ <;> subst h1 <;> simp [deltaL, tokDelta]
  | .vnum n, p, q, h => by
    rcases singleton_split h with ⟨h1, -⟩ | ⟨h1, -⟩ <;> subst h1 <;> simp [deltaL, tokDelta]
  | .vbool b, p, q, h => by
    rcases singleton_split h with ⟨h1, -⟩ | ⟨h1, -⟩ <;> subst h1 <;> simp [deltaL, tokDelta]
  | .vnull, p, q, h => by
    rcases singleton_split h with ⟨h1, -⟩ | ⟨h1, -⟩ <;> subst h1 <;> simp [deltaL, tokDelta]
  | .varr xs, p, q, h => by
    rw [JsonVal.tokens] at h
    cases p with
    | nil => simp [deltaL]
    | cons a p' =>
      rw [List.cons_append] at h
      obtain ⟨h1, h2⟩ := List.cons.inj h
      subst h1
      rw [deltaL_cons]
      rcases List.append_eq_append_iff.mp h2 with ⟨m, hm1, hm2⟩ | ⟨m, hm1, hm2⟩
      · rcases singleton_split hm2 with ⟨hm3, -⟩ | ⟨hm3, -⟩ <;> subst hm3 <;> subst hm1 <;>
          rw [deltaL_append, deltaL_tokensA xs] <;> simp [deltaL, tokDelta]
      · have h3 := prefA xs p' m hm1
        simp only [tokDelta]
        omega
  | .vobj fs, p, q, h => by
    rw [JsonVal.tokens] at h
    cases p with
    | nil => simp [deltaL]
    | cons a p' =>
      rw [List.cons_append] at h
      obtain ⟨h1, h2⟩ := List.cons.inj h
      subst h1
      rw [deltaL_cons]
      rcases List.append_eq_append_iff.mp h2 with ⟨m, hm1, hm2⟩ | ⟨m, hm1, hm2⟩
      · rcases singleton_split hm2 with ⟨hm3, -⟩ | ⟨hm3, -⟩ <;> subst hm3 <;> subst hm1 <;>
          rw [deltaL_append, deltaL_tokensO fs] <;> simp [deltaL, tokDelta]
      · have h3 := prefO fs p' m hm1
        simp only [tokDelta]
        omega

/-- Every prefix of an array body's token sequence has nonnegative depth
change. -/
theorem prefA : ∀ (xs : JsonArr) (p q : List Token), JsonArr.tokens xs = p ++ q → 0 ≤ deltaL p
  | .anil, p, q, h => by
    obtain ⟨h1, -⟩ := List.append_eq_nil.mp h.symm
    subst h1
    simp [deltaL]
  | .acons v tl, p, q, h => by
    rw [JsonArr.tokens] at h
    rcases List.append_eq_append_iff.mp h with ⟨m, hm1, hm2⟩ | ⟨m, hm1, hm2⟩
    · have h3 := prefA tl m q hm2
      subst hm1
      rw [deltaL_append, deltaL_tokensV v]
      omega
    · exact prefV v p m hm1

/-- Every prefix of an object body's token sequence has nonnegative depth
change. -/
theorem prefO : ∀ (fs : JsonObj) (p q : List Token), JsonObj.tokens fs = p ++ q → 0 ≤ deltaL p
  | .onil, p, q, h => by
    obtain ⟨h1, -⟩ := List.append_eq_nil.mp h.symm
    subst h1
    simp [deltaL]
  | .ocons k v tl, p, q, h => by
    rw [JsonObj.tokens] at h
    cases p with
    | nil => simp [deltaL]
    | cons a p' =>
      rw [List.cons_append] at h
      obtain ⟨h1, h2⟩ := List.cons.inj h
      subst h1
      rw [deltaL_cons]
      rcases List.append_eq_append_iff.mp h2 with ⟨m, hm1, hm2⟩ | ⟨m, hm1, hm2⟩
      · have h3 := prefO tl m q hm2
        subst hm1
        rw [deltaL_append, deltaL_tokensV v]
        simp only [tokDelta]
        omega
      · have h3 := prefV v p' m hm1
        simp only [tokDelta]
        omega
end

/-- Every proper nonempty prefix of a composite value's token sequence has
strictly positive depth change: the copy loop's depth check cannot fire
early. -/
theorem prefPos : ∀ (v : JsonVal), JsonVal.IsComposite v = true →
    ∀ p q, JsonVal.tokens v = p ++ q → p ≠ [] → q ≠ [] → 0 < deltaL p := by
  intro v hv p q h hp hq
  cases v with
  | vstr s => simp [JsonVal.IsComposite] at hv
  | vnum n => simp [JsonVal.IsComposite] at hv
  | vbool b => simp [JsonVal.IsComposite] at hv
  | vnull => simp [JsonVal.IsComposite] at hv
  | varr xs =>
    rw [JsonVal.tokens] at h
    cases p with
    | nil => exact absurd rfl hp
    | cons a p' =>
      rw [List.cons_append] at h
      obtain ⟨h1, h2⟩ := List.cons.inj h
      subst h1
      rw [deltaL_cons]
      rcases List.append_eq_append_iff.mp h2 with ⟨m, hm1, hm2⟩ | ⟨m, hm1, hm2⟩
      · rcases singleton_split hm2 with ⟨hm3, hm4⟩ | ⟨hm3, hm4⟩
        · subst hm3
          subst hm1
          rw [List.append_nil, deltaL_tokensA xs]
          simp only [tokDelta]
          omega
        · exact absurd hm4 hq
      · have h3 := prefA xs p' m hm1
        simp only [tokDelta]
        omega
  | vobj fs =>
    rw [JsonVal.tokens] at h
    cases p with
    | nil => exact absurd rfl hp
    | cons a p' =>
      rw [List.cons_append] at h
      obtain ⟨h1, h2⟩ := List.cons.inj h
      subst h1
      rw [deltaL_cons]
      rcases List.append_eq_append_iff.mp h2 with ⟨m, hm1, hm2⟩ | ⟨m, hm1, hm2⟩
      · rcases singleton_split hm2 with ⟨hm3, hm4⟩ | ⟨hm3, hm4⟩
        · subst hm3
          subst hm1
          rw [List.append_nil, deltaL_tokensO fs]
          simp only [tokDelta]
          omega
        · exact absurd hm4 hq
      · have h3 := prefO fs p' m hm1
        simp only [tokDelta]
        omega

theorem tokens_ne_nil : ∀ v : JsonVal, JsonVal.tokens v ≠ [] := by
  intro v
  cases v <;> simp [JsonVal.tokens]

/-- One write step from a left-good state succeeds in full and preserves
left-goodness, for any close cause the right consumer may record now. -/
theorem writeStep_lgood (masked : PErr) (cr : Option PErr) (ts : MPWState)
    (hg : LGood masked ts) (hcr : ∀ c, cr = some c → c = masked) :
    ∃ ts', multiPipeWriterWrite masked (setCauses ts none cr) 1 = some (ts', 1, none) ∧
      LGood masked ts' := by
  obtain ⟨⟨plr, plw⟩, ⟨prr, prw⟩, hL, hR⟩ := ts
  simp only [LGood] at hg
  obtain ⟨h1, h2, h3, h4⟩ := hg
  subst h1
  subst h2
  subst h3
  cases hR with
  | false =>
    rcases hc : cr with _ | c
    · exact ⟨⟨⟨none, none⟩, ⟨prr, prw⟩, true, false⟩,
        by simp [setCauses, multiPipeWriterWrite, mpwBlock2, mpwFinal, pipeWrite],
        by simp [LGood]⟩
    · have hcm : c = masked := hcr c hc
      rw [hcm]
      exact ⟨⟨⟨none, none⟩, pipeCloseRd ⟨prr, prw⟩ masked, true, false⟩,
        by simp [setCauses, multiPipeWriterWrite, mpwBlock2, mpwFinal, pipeWrite],
        by simp [LGood]⟩
  | true =>
    obtain ⟨h5, h6⟩ := h4 rfl
    subst h5
    rcases hc : cr with _ | c
    · rcases h6 with h6 | h6
      · subst h6
        exact ⟨⟨⟨none, none⟩, ⟨none, none⟩, true, true⟩,
          by simp [setCauses, multiPipeWriterWrite, mpwBlock2, mpwFinal, pipeWrite],
          by simp [LGood]⟩
      · subst h6
        exact ⟨⟨⟨none, none⟩, ⟨some masked, none⟩, true, false⟩,
          by simp [setCauses, multiPipeWriterWrite, mpwBlock2, mpwFinal, pipeWrite],
          by simp [LGood]⟩
    · have hcm : c = masked := hcr c hc
      rw [hcm]
      rcases h6 with h6 | h6
      · subst h6
        exact ⟨⟨⟨none, none⟩, ⟨some masked, none⟩, true, false⟩,
          by simp [setCauses, multiPipeWriterWrite, mpwBlock2, mpwFinal, pipeWrite,
            pipeCloseRd],
          by simp [LGood]⟩
      · subst h6
        exact ⟨⟨⟨none, none⟩, ⟨some masked, none⟩, true, false⟩,
          by simp [setCauses, multiPipeWriterWrite, mpwBlock2, mpwFinal, pipeWrite,
            pipeCloseRd],
          by simp [LGood]⟩

/-- Mirror of `writeStep_lgood` for a right-good state. -/
theorem writeStep_rgood (masked : PErr) (cl : Option PErr) (ts : MPWState)
    (hg : RGood masked ts) (hcl : ∀ c, cl = some c → c = masked) :
    ∃ ts', multiPipeWriterWrite masked (setCauses ts cl none) 1 = some (ts', 1, none) ∧
      RGood masked ts' := by
  obtain ⟨⟨plr, plw⟩, ⟨prr, prw⟩, hL, hR⟩ := ts
  simp only [RGood] at hg
  obtain ⟨h1, h2, h3, h4⟩ := hg
  subst h1
  subst h2
  subst h3
  cases hL with
  | false =>
    rcases hc : cl with _ | c
    · exact ⟨⟨⟨plr, plw⟩, ⟨none, none⟩, false, true⟩,
        by simp [setCauses, multiPipeWriterWrite, mpwBlock2, mpwFinal, pipeWrite],
        by simp [RGood]⟩
    · have hcm : c = masked := hcl c hc
      rw [hcm]
      exact ⟨⟨pipeCloseRd ⟨plr, plw⟩ masked, ⟨none, none⟩, false, true⟩,
        by simp [setCauses, multiPipeWriterWrite, mpwBlock2, mpwFinal, pipeWrite],
        by simp [RGood]⟩
  | true =>
    obtain ⟨h5, h6⟩ := h4 rfl
    subst h5
    rcases hc : cl with _ | c
    · rcases h6 with h6 | h6
      · subst h6
        exact ⟨⟨⟨none, none⟩, ⟨none, none⟩, true, true⟩,
          by simp [setCauses, multiPipeWriterWrite, mpwBlock2, mpwFinal, pipeWrite],
          by simp [RGood]⟩
      · subst h6
        exact ⟨⟨⟨some masked, none⟩, ⟨none, none⟩, false, true⟩,
          by simp [setCauses, multiPipeWriterWrite, mpwBlock2, mpwFinal, pipeWrite],
          by simp [RGood]⟩
    · have hcm : c = masked := hcl c hc
      rw [hcm]
      rcases h6 with h6 | h6
      · subst h6
        exact ⟨⟨⟨some masked, none⟩, ⟨none, none⟩, false, true⟩,
          by simp [setCauses, multiPipeWriterWrite, mpwBlock2, mpwFinal, pipeWrite,
            pipeCloseRd],
          by simp [RGood]⟩
      · subst h6
        exact ⟨⟨⟨some masked, none⟩, ⟨none, none⟩, false, true⟩,
          by simp [setCauses, multiPipeWriterWrite, mpwBlock2, mpwFinal, pipeWrite,
            pipeCloseRd],
          by simp [RGood]⟩

/-- One write step from any good configuration succeeds in full and
preserves the configuration. -/
theorem writeStep_good (masked : PErr) (sl sr : Option (Nat × PErr)) (i : Nat) (ts : MPWState)
    (hg : GoodCfg masked sl sr ts) :
    ∃ ts', multiPipeWriterWrite masked (setCauses ts (schedAt sl i) (schedAt sr i)) 1 =
        some (ts', 1, none) ∧ GoodCfg masked sl sr ts' := by
  rcases hg with ⟨ho, hm, hl⟩ | ⟨ho, hm, hr⟩
  · rw [ho i]
    obtain ⟨ts', hw, hgd⟩ := writeStep_lgood masked (schedAt sr i) ts hl (fun c h => hm i c h)
    exact ⟨ts', hw, Or.inl ⟨ho, hm, hgd⟩⟩
  · rw [ho i]
    obtain ⟨ts', hw, hgd⟩ := writeStep_rgood masked (schedAt sl i) ts hr (fun c h => hm i c h)
    exact ⟨ts', hw, Or.inr ⟨ho, hm, hgd⟩⟩

/-- Core loop lemma: started on a depth-balanced token block whose proper
prefixes never return to the entry depth, with at least one consumer
draining to the end, the copy loop forwards exactly that block and leaves
the source positioned right after it. -/
theorem teeCopyLoop_exact (masked : PErr) (sl sr : Option (Nat × PErr)) (entry : Int) :
    ∀ (p rest : List Token) (dep : Int) (ts : MPWState) (i : Nat) (acc : List Token),
      dep + deltaL p = entry →
      (∀ q s, p = q ++ s → q ≠ [] → s ≠ [] → dep + deltaL q ≠ entry) →
      p ≠ [] → GoodCfg masked sl sr ts →
      ∃ ts', teeCopyLoop masked sl sr entry (p ++ rest) dep ts i acc =
          some (⟨rest, entry⟩, ts', acc ++ p, none) ∧ GoodCfg masked sl sr ts' := by
  intro p
  induction p with
  | nil =>
    intro rest dep ts i acc _ _ hne _
    exact absurd rfl hne
  | cons t p' ih =>
    intro rest dep ts i acc hsum hpre _ hg
    obtain ⟨ts1, hw, hg1⟩ := writeStep_good masked sl sr i ts hg
    rw [List.cons_append]
    cases p' with
    | nil =>
      have hdep : dep + tokDelta t = entry := by
        rw [deltaL_cons, deltaL_nil] at hsum
        omega
      refine ⟨ts1, ?_, hg1⟩
      simp only [List.nil_append, teeCopyLoop, hw, if_pos hdep]
      simp [hdep]
    | cons u p'' =>
      have hdep : dep + tokDelta t ≠ entry := by
        have h0 := hpre [t] (u :: p'') rfl (by simp) (by simp)
        rw [deltaL_cons, deltaL_nil] at h0
        omega
      have hsum' : dep + tokDelta t + deltaL (u :: p'') = entry := by
        rw [deltaL_cons] at hsum
        omega
      have hpre' : ∀ q s, u :: p'' = q ++ s → q ≠ [] → s ≠ [] →
          dep + tokDelta t + deltaL q ≠ entry := by
        intro q s hqs hq hs
        have h0 := hpre (t :: q) s (by rw [hqs, List.cons_append]) (by simp) hs
        rw [deltaL_cons] at h0
        omega
      obtain ⟨ts2, hrec, hg2⟩ := ih rest (dep + tokDelta t) ts1 (i + 1) (acc ++ [t])
        hsum' hpre' (by simp) hg1
      refine ⟨ts2, ?_, hg2⟩
      have hstep : teeCopyLoop masked sl sr entry (t :: ((u :: p'') ++ rest)) dep ts i acc =
          teeCopyLoop masked sl sr entry ((u :: p'') ++ rest) (dep + tokDelta t) ts1 (i + 1)
            (acc ++ [t]) := by
        simp only [teeCopyLoop, hw, if_neg hdep]
      rw [hstep, hrec]
      simp

/-- Claim C2, counterexample: a composite value of six tokens, with both
consumers stopping before the third write, each with the masked
failed-early sentinel (both decode attempts failed early, the
BothShapesFailed outcome): every further Write fails with io.ErrClosedPipe,
the loop returns from inside the value, and the last three tokens of the
entry value remain unconsumed on the source decoder. -/
theorem cursorAdvance_cex :
    JsonVal.tokens (JsonVal.vobj (JsonObj.ocons "foo" (JsonVal.vbool false)
        (JsonObj.ocons "bar" (JsonVal.vstr "x") JsonObj.onil))) =
      [Token.beginObj, Token.str "foo", Token.bool false, Token.str "bar", Token.str "x",
        Token.endObj] ∧
    teeCopyLoop PErr.failedEarly (some (2, PErr.failedEarly)) (some (2, PErr.failedEarly)) 0
        [Token.beginObj, Token.str "foo", Token.bool false, Token.str "bar", Token.str "x",
          Token.endObj] 0 ⟨⟨none, none⟩, ⟨none, none⟩, true, true⟩ 0 [] =
      some (⟨[Token.str "bar", Token.str "x", Token.endObj], 1⟩,
        ⟨⟨some PErr.failedEarly, none⟩, ⟨some PErr.failedEarly, none⟩, false, false⟩,
        [Token.beginObj, Token.str "foo", Token.bool false], some PErr.closedPipe) ∧
    ([Token.str "bar", Token.str "x", Token.endObj] : List Token) ≠ [] := by
  refine ⟨?_, ?_, by simp⟩
  · simp [JsonVal.tokens, JsonObj.tokens]
  · rfl

/-- Claim C2, amended: for every composite value, whenever at least one
stream view keeps accepting the stream through the whole value and the
other view only ever stops with the masked early-failure sentinel — which
covers every Left, every Right, and every both-failed outcome in which one
side drains the value — the copy loop consumes exactly the tokens of the
one value present on entry: the source decoder ends positioned immediately
after it, at the entry depth, with no token of the value unconsumed and no
token past it consumed.  (When both views stop before the value's end, the
loop instead aborts mid-value, as the counterexample shows.) -/
theorem cursorAdvance_amended (masked : PErr) (sl sr : Option (Nat × PErr)) (v : JsonVal)
    (rest : List Token) (dep : Int) (ts : MPWState)
    (hv : JsonVal.IsComposite v = true) (hg : GoodCfg masked sl sr ts) :
    ∃ ts', teeCopyLoop masked sl sr dep (JsonVal.tokens v ++ rest) dep ts 0 [] =
        some (⟨rest, dep⟩, ts', JsonVal.tokens v, none) ∧ GoodCfg masked sl sr ts' := by
  have hsum : dep + deltaL (JsonVal.tokens v) = dep := by
    rw [deltaL_tokensV v]
    omega
  have hpre : ∀ q s, JsonVal.tokens v = q ++ s → q ≠ [] → s ≠ [] →
      dep + deltaL q ≠ dep := by
    intro q s h hq hs
    have := prefPos v hv q s h hq hs
    omega
  obtain ⟨ts', h1, h2⟩ := teeCopyLoop_exact masked sl sr dep (JsonVal.tokens v) rest dep ts 0 []
    hsum hpre (tokens_ne_nil v) hg
  rw [List.nil_append] at h1
  exact ⟨ts', h1, h2⟩

/-- Claim C2, witness: the amended theorem applied to the array value
made of one number, with the left consumer draining to the end and the
right consumer stopping with the masked sentinel before the second
write. -/
theorem cursorAdvance_witness :
    JsonVal.IsComposite (JsonVal.varr (JsonArr.acons (JsonVal.vnum 1) JsonArr.anil)) = true ∧
    GoodCfg PErr.failedEarly none (some (1, PErr.failedEarly))
      ⟨⟨none, none⟩, ⟨none, none⟩, true, true⟩ ∧
    ∃ ts', teeCopyLoop PErr.failedEarly none (some (1, PErr.failedEarly)) 0
        (JsonVal.tokens (JsonVal.varr (JsonArr.acons (JsonVal.vnum 1) JsonArr.anil)) ++
          [Token.null]) 0 ⟨⟨none, none⟩, ⟨none, none⟩, true, true⟩ 0 [] =
      some (⟨[Token.null], 0⟩, ts',
        JsonVal.tokens (JsonVal.varr (JsonArr.acons (JsonVal.vnum 1) JsonArr.anil)), none) ∧
      GoodCfg PErr.failedEarly none (some (1, PErr.failedEarly)) ts' := by
  have hcfg : GoodCfg PErr.failedEarly none (some (1, PErr.failedEarly))
      ⟨⟨none, none⟩, ⟨none, none⟩, true, true⟩ := by
    left
    refine ⟨fun i => rfl, ?_, ?_⟩
    · intro i c h
      by_cases hi : 1 ≤ i
      · simp [schedAt, hi] at h
        exact h.symm
      · simp [schedAt, hi] at h
    · exact ⟨rfl, rfl, rfl, fun _ => ⟨rfl, Or.inl rfl⟩⟩
  exact ⟨rfl, hcfg, cursorAdvance_amended PErr.failedEarly none (some (1, PErr.failedEarly))
    (JsonVal.varr (JsonArr.acons (JsonVal.vnum 1) JsonArr.anil)) [Token.null] 0
    ⟨⟨none, none⟩, ⟨none, none⟩, true, true⟩ rfl hcfg⟩

end Play
